import Mathlib

/-!
A shallow embedding of the sidecar process supervisor implemented in
`src/client/src-tauri/src/lib.rs`, together with theorems about its
discovery, launch, health-probe, readiness-wait and fallback behaviour.

I/O is made explicit: filesystem existence checks, spawn outcomes,
network outcomes and `try_wait` observations are passed in as oracles,
and each modelled function returns its Rust result value together with a
trace of the observable effects (probes, sleeps, spawns, exit checks) it
performs, in order.
-/

namespace NyxSupervisor

deriving instance DecidableEq for Except

/-- Disposition of a child's standard stream: `Stdio::null()` or `Stdio::piped()`. -/
inductive StdioPolicy
  | null
  | piped
  deriving DecidableEq, Repr

/-- The process invocation assembled by `Command::new(..).arg(..).current_dir(..)`:
program, arguments, optional working directory, and both stream dispositions. -/
structure LaunchCmd where
  program : String
  args : List String
  cwd : Option String
  stdout : StdioPolicy
  stderr : StdioPolicy
  deriving DecidableEq, Repr

/-- Outcome of the single HTTP GET issued by `check_server_health`, as observed
through `reqwest`: either a transport failure (connection refused, exceeded
timeout, DNS error, ...) or a completed response carrying its status code. -/
inductive NetOutcome
  | failure (reason : String)
  | response (status : Nat)
  deriving DecidableEq, Repr

/-- Result of `child.try_wait()`: the child exited with a status (`Ok(Some(_))`),
is still running (`Ok(None)`), or the liveness check itself failed (`Err(_)`). -/
inductive TryWaitRes
  | exited (status : String)
  | running
  | checkError (e : String)
  deriving DecidableEq, Repr

/-- An observable effect performed by the supervisor code: a health probe
(with the `check_server_health` result it produced), a sleep of a given number
of seconds, a process spawn with the assembled command, or a `try_wait` check. -/
inductive Event
  | probe (res : Except String Bool)
  | sleepSecs (n : Nat)
  | spawn (cmd : LaunchCmd)
  | waitCheck (r : TryWaitRes)
  deriving DecidableEq, Repr

/-- `http::StatusCode::is_success()`: the status lies in `200..=299`. -/
def statusIsSuccess (s : Nat) : Bool := 200 ≤ s && s < 300

/-- The per-call timeout of `check_server_health`: `Duration::from_secs(5)`
(lib.rs line 10). -/
def healthProbeTimeoutSecs : Nat := 5

/-- An HTTP request as configured by the `reqwest` builder: URL and timeout. -/
structure HttpRequest where
  url : String
  timeoutSecs : Nat
  deriving DecidableEq, Repr

/-- The request built by `check_server_health` (lib.rs lines 9-11). -/
def healthRequest : HttpRequest :=
  { url := "http://localhost:3000/health", timeoutSecs := healthProbeTimeoutSecs }

/-- `check_server_health` (lib.rs lines 7-17): a completed response maps to
`Ok(status.is_success())`, any transport error maps to `Ok(false)`. -/
def check_server_health (o : NetOutcome) : Except String Bool :=
  match o with
  | NetOutcome.response s => Except.ok (statusIsSuccess s)
  | NetOutcome.failure _ => Except.ok false

/-- The attempt bound of `wait_for_server_ready`: `for i in 0..30` (lib.rs line 151). -/
def readinessMaxAttempts : Nat := 30

/-- The sleep between readiness attempts: `Duration::from_secs(1)` (lib.rs
lines 159 and 163). -/
def readinessIntervalSecs : Nat := 1

/-- The retry loop of `wait_for_server_ready` (lib.rs lines 151-166), with the
remaining number of attempts as fuel and the current attempt index. `probe i`
is the `check_server_health` result of attempt `i`. On `Ok(true)` the loop
returns `Ok(true)` at once; on `Ok(false)` and on `Err(_)` it sleeps one second
and retries; exhausted fuel yields the timeout error. -/
def waitLoop (probe : Nat → Except String Bool) : Nat → Nat → Except String Bool × List Event
  | 0, _ => (Except.error "Server failed to start within 30 seconds", [])
  | n + 1, i =>
    match probe i with
    | Except.ok true => (Except.ok true, [Event.probe (Except.ok true)])
    | Except.ok false =>
      let r := waitLoop probe n (i + 1)
      (r.1, Event.probe (Except.ok false) :: Event.sleepSecs readinessIntervalSecs :: r.2)
    | Except.error e =>
      let r := waitLoop probe n (i + 1)
      (r.1, Event.probe (Except.error e) :: Event.sleepSecs readinessIntervalSecs :: r.2)

/-- `wait_for_server_ready` (lib.rs lines 147-169). -/
def wait_for_server_ready (probe : Nat → Except String Bool) :
    Except String Bool × List Event :=
  waitLoop probe readinessMaxAttempts 0

/-- The trace of `k` consecutive failed readiness attempts starting at index `i`:
each probe is followed by a one-second sleep. -/
def failSeg (probe : Nat → Except String Bool) (i : Nat) : Nat → List Event
  | 0 => []
  | k + 1 =>
    Event.probe (probe i) :: Event.sleepSecs readinessIntervalSecs :: failSeg probe (i + 1) k

/-- Rust `str::ends_with`, modelled on the string's character list: the
suffix's characters are exactly the final characters of the string. -/
def strEndsWith (s suffix : String) : Bool :=
  s.data.drop (s.data.length - suffix.data.length) == suffix.data

/-- The fixed candidate list of `start_server` (lib.rs lines 24-30), in source order. -/
def server_paths : List String :=
  ["./server/start.js", "../server/start.js", "./server/dist/nyx-server.exe",
   "../server/dist/nyx-server.exe", "nyx-server.exe"]

/-- The command `start_server` assembles for a candidate path (lib.rs lines 37-53):
a `.js` path is run as `node <path>` with working directory `./server`; any other
path is run directly with no working directory set; both streams are discarded. -/
def commandFor (path : String) : LaunchCmd :=
  if strEndsWith path ".js" then
    { program := "node", args := [path], cwd := some "./server",
      stdout := StdioPolicy.null, stderr := StdioPolicy.null }
  else
    { program := path, args := [], cwd := none,
      stdout := StdioPolicy.null, stderr := StdioPolicy.null }

/-- The candidate loop of `start_server` over a path list: an existing path is
spawned; a successful spawn returns at once; a failed spawn is only logged and
the loop continues with the remaining candidates; an exhausted list yields the
fixed error message (lib.rs lines 32-62). `fs` is the filesystem existence
oracle, `spawn` the OS spawn oracle. The trace records every spawn attempted. -/
def startServerLoop (fs : String → Bool) (spawn : LaunchCmd → Except String Unit) :
    List String → Except String String × List Event
  | [] => (Except.error "Could not find or start server executable", [])
  | p :: rest =>
    if fs p then
      match spawn (commandFor p) with
      | Except.ok _ =>
        (Except.ok ("Server started from " ++ p), [Event.spawn (commandFor p)])
      | Except.error _ =>
        let r := startServerLoop fs spawn rest
        (r.1, Event.spawn (commandFor p) :: r.2)
    else
      startServerLoop fs spawn rest

/-- `start_server` (lib.rs lines 20-63). -/
def start_server (fs : String → Bool) (spawn : LaunchCmd → Except String Unit) :
    Except String String × List Event :=
  startServerLoop fs spawn server_paths

/-- Spec-side resolver, stated from the spec's words for comparison with
`start_server`: the first path of the list that exists, `none` when no path
exists (the CandidateResolver `resolve` contract). -/
def firstExisting (fs : String → Bool) : List String → Option String
  | [] => none
  | p :: rest => if fs p then some p else firstExisting fs rest

/-- The command assembled for the embedded launch (lib.rs lines 112-115): run
the packaged resource executable directly with both streams piped. -/
def embeddedCommand (resourcePath : String) : LaunchCmd :=
  { program := resourcePath, args := [], cwd := none,
    stdout := StdioPolicy.piped, stderr := StdioPolicy.piped }

/-- The grace period after an embedded spawn: `Duration::from_secs(3)` (lib.rs line 121). -/
def embeddedGraceSecs : Nat := 3

/-- `start_embedded_server` (lib.rs lines 96-144). `resourceDir` is the result of
`app_handle.path().resource_dir()`; the resource executable is
`<dir>/nyx-server.exe`. If that file is absent the function falls back to
`start_server` (line 108). On a successful spawn it sleeps the grace period and
then inspects `try_wait` (`tw`): an early exit and a failed check both yield an
error; only a still-running child yields `Ok(())`. -/
def start_embedded_server (resourceDir : Except String String) (fs : String → Bool)
    (spawn : LaunchCmd → Except String Unit) (tw : TryWaitRes) :
    Except String Unit × List Event :=
  match resourceDir with
  | Except.error e => (Except.error ("Failed to get resource directory: " ++ e), [])
  | Except.ok dir =>
    let resourcePath := dir ++ "/nyx-server.exe"
    if fs resourcePath then
      match spawn (embeddedCommand resourcePath) with
      | Except.ok _ =>
        let pre := [Event.spawn (embeddedCommand resourcePath),
                    Event.sleepSecs embeddedGraceSecs, Event.waitCheck tw]
        match tw with
        | TryWaitRes.exited status =>
          (Except.error ("Server process exited early with status: " ++ status), pre)
        | TryWaitRes.running => (Except.ok (), pre)
        | TryWaitRes.checkError e =>
          (Except.error ("Error checking server process: " ++ e), pre)
      | Except.error e =>
        (Except.error ("Failed to start server: " ++ e),
         [Event.spawn (embeddedCommand resourcePath)])
    else
      let r := start_server fs spawn
      (r.1.map (fun _ => ()), r.2)

/-- Terminal outcome of the startup background task in `run` (lib.rs lines
188-214), one constructor per log branch. -/
inductive StartupOutcome
  | alreadyRunning
  | embeddedStarted
  | fallbackStarted (msg : String)
  | allFailed (e : String)
  | healthCheckError (e : String)
  deriving DecidableEq, Repr

/-- The startup background task spawned in `run`'s `setup` hook (lib.rs lines
191-214): sleep two seconds, probe health once; a healthy server is left
untouched; otherwise try `start_embedded_server`, and on its failure fall back
to `start_server`; only when that also fails is the all-failed outcome reported,
carrying `start_server`'s error. -/
def startup_task (net : NetOutcome) (resourceDir : Except String String)
    (fs : String → Bool) (spawn : LaunchCmd → Except String Unit) (tw : TryWaitRes) :
    StartupOutcome × List Event :=
  let pre := [Event.sleepSecs 2, Event.probe (check_server_health net)]
  match check_server_health net with
  | Except.ok true => (StartupOutcome.alreadyRunning, pre)
  | Except.ok false =>
    let emb := start_embedded_server resourceDir fs spawn tw
    match emb.1 with
    | Except.ok _ => (StartupOutcome.embeddedStarted, pre ++ emb.2)
    | Except.error _ =>
      let ext := start_server fs spawn
      match ext.1 with
      | Except.ok msg => (StartupOutcome.fallbackStarted msg, pre ++ emb.2 ++ ext.2)
      | Except.error e2 => (StartupOutcome.allFailed e2, pre ++ emb.2 ++ ext.2)
  | Except.error e => (StartupOutcome.healthCheckError e, pre)

/-- Spec-side definition, stated from the spec's words for comparison with the
working directory `start_server` actually sets: a script path's containing
directory is the path up to, but not including, its final separator. -/
def containingDir (p : String) : String :=
  String.mk (((p.data.reverse.dropWhile (fun c => !(c == '/'))).drop 1).reverse)

/-- Whether an event is a process spawn. -/
def isSpawn : Event → Bool
  | Event.spawn _ => true
  | _ => false

/-- An interleaved execution of two concurrent invocations whose sequential
effect traces are `t1` and `t2`. The schedule picks, step by step, which
invocation performs its next effect (`true` for the first). Each emitted event
is paired with whether the OTHER invocation was still in flight (had effects
left to perform) at that moment. The code keeps no shared state that could
make one invocation's behaviour depend on the other, so each invocation's
event sequence is its sequential trace regardless of the schedule. -/
def interleaveRun : List Event → List Event → List Bool → List (Event × Bool)
  | _, _, [] => []
  | t1, t2, c :: sch =>
    if c then
      match t1 with
      | [] => interleaveRun [] t2 sch
      | e :: r => (e, !t2.isEmpty) :: interleaveRun r t2 sch
    else
      match t2 with
      | [] => interleaveRun t1 [] sch
      | e :: r => (e, !t1.isEmpty) :: interleaveRun t1 r sch

/-! ### Concrete oracles used by witnesses and counterexamples -/

/-- A filesystem on which no path exists. -/
def fsNone : String → Bool := fun _ => false

/-- A filesystem on which exactly `./server/start.js` exists. -/
def fsB : String → Bool := fun p => p == "./server/start.js"

/-- A filesystem on which the second and the last candidate of `server_paths`
both exist. -/
def fsTwo : String → Bool :=
  fun p => p == "../server/start.js" || p == "nyx-server.exe"

/-- A filesystem on which exactly the packaged resource `/res/nyx-server.exe`
exists. -/
def fsRes : String → Bool := fun p => p == "/res/nyx-server.exe"

/-- A spawn oracle on which every spawn succeeds. -/
def spawnOk : LaunchCmd → Except String Unit := fun _ => Except.ok ()

/-- A spawn oracle on which every spawn is refused with `permission denied`. -/
def spawnFailA : LaunchCmd → Except String Unit :=
  fun _ => Except.error "permission denied"

/-- A spawn oracle on which every spawn is refused with a different OS error. -/
def spawnFailB : LaunchCmd → Except String Unit :=
  fun _ => Except.error "interpreter not found"

/-- A network on which the health endpoint refuses connections. -/
def netRefused : NetOutcome := NetOutcome.failure "connection refused"

/-- A probe sequence whose first healthy result is attempt 2. -/
def probeW : Nat → Except String Bool :=
  fun i => if i = 2 then Except.ok true else Except.ok false

/-- The startup background task's trace under: health probe refused, resource
directory `/res` holding no packaged executable, `./server/start.js` present,
every spawn succeeding. It probes, finds no packaged resource, and spawns the
external script. -/
def startupTrace : List Event :=
  (startup_task netRefused (Except.ok "/res") fsB spawnOk TryWaitRes.running).2

/-- The trace of an explicit `start_server` command invocation under the same
filesystem and spawn oracles: it spawns the external script. -/
def commandTrace : List Event :=
  (start_server fsB spawnOk).2

/-- One specific schedule of the startup background task racing an explicit
`start_server` command: the task sleeps and probes, then the command runs to
completion (spawning a server), then the task resumes and spawns a second
server. -/
def raceTrace : List (Event × Bool) :=
  interleaveRun startupTrace commandTrace [true, true, false, true]

/-! ## Theorems -/

/-- If none of the next `n` probes starting at index `i` is healthy, the loop
times out and its trace is `n` failed attempts, each followed by a sleep. -/
theorem waitLoop_all_fail (probe : Nat → Except String Bool) :
    ∀ n i, (∀ k, k < n → probe (i + k) ≠ Except.ok true) →
      waitLoop probe n i =
        (Except.error "Server failed to start within 30 seconds", failSeg probe i n) := by
  intro n
  induction n with
  | zero => intro i _; rfl
  | succ n ih =>
    intro i h
    have h0 : probe i ≠ Except.ok true := by simpa using h 0 (Nat.succ_pos n)
    have h' : ∀ k, k < n → probe (i + 1 + k) ≠ Except.ok true := by
      intro k hk
      have hh := h (k + 1) (by omega)
      rwa [show i + (k + 1) = i + 1 + k by omega] at hh
    cases hb : probe i with
    | error e => simp [waitLoop, hb, failSeg, ih (i + 1) h']
    | ok b =>
      cases b with
      | true => exact absurd hb h0
      | false => simp [waitLoop, hb, failSeg, ih (i + 1) h']

/-- If the first healthy probe starting at index `i` is at offset `j < n`, the
loop returns `Ok(true)` right there: its trace is the `j` failed attempts (each
followed by a sleep) and then the single healthy probe, with no further probe
and no sleep after success. -/
theorem waitLoop_first_success (probe : Nat → Except String Bool) :
    ∀ j n i, j < n → probe (i + j) = Except.ok true →
      (∀ k, k < j → probe (i + k) ≠ Except.ok true) →
      waitLoop probe n i =
        (Except.ok true, failSeg probe i j ++ [Event.probe (Except.ok true)]) := by
  intro j
  induction j with
  | zero =>
    intro n i hn hp _
    cases n with
    | zero => omega
    | succ m =>
      have hp' : probe i = Except.ok true := by simpa using hp
      simp [waitLoop, hp', failSeg]
  | succ j ih =>
    intro n i hn hp hbefore
    cases n with
    | zero => omega
    | succ m =>
      have h0 : probe i ≠ Except.ok true := by simpa using hbefore 0 (Nat.succ_pos j)
      have hp' : probe (i + 1 + j) = Except.ok true := by
        rwa [show i + 1 + j = i + (j + 1) by omega]
      have hbefore' : ∀ k, k < j → probe (i + 1 + k) ≠ Except.ok true := by
        intro k hk
        have hh := hbefore (k + 1) (by omega)
        rwa [show i + (k + 1) = i + 1 + k by omega] at hh
      cases hb : probe i with
      | error e =>
        simp [waitLoop, hb, failSeg, ih m (i + 1) (by omega) hp' hbefore']
      | ok b =>
        cases b with
        | true => exact absurd hb h0
        | false =>
          simp [waitLoop, hb, failSeg, ih m (i + 1) (by omega) hp' hbefore']

/-- C1: `wait_for_server_ready` (maxAttempts = 30, interval = 1 s) returns
`Ok(true)` at the first healthy probe, issuing no further probe and not
sleeping after success; when none of the 30 probes is healthy it returns the
timeout error, and its trace is exactly 30 probes each followed by a one-second
sleep (every failed attempt sleeps; the loop never busy-polls). -/
theorem wait_for_server_ready_correct (probe : Nat → Except String Bool) :
    (∀ j, j < readinessMaxAttempts → probe j = Except.ok true →
      (∀ k, k < j → probe k ≠ Except.ok true) →
      wait_for_server_ready probe =
        (Except.ok true, failSeg probe 0 j ++ [Event.probe (Except.ok true)])) ∧
    ((∀ j, j < readinessMaxAttempts → probe j ≠ Except.ok true) →
      wait_for_server_ready probe =
        (Except.error "Server failed to start within 30 seconds",
         failSeg probe 0 readinessMaxAttempts)) := by
  constructor
  · intro j hj hp hbefore
    have hh := waitLoop_first_success probe j readinessMaxAttempts 0 hj
      (by simpa using hp) (by intro k hk; simpa using hbefore k hk)
    simpa [wait_for_server_ready] using hh
  · intro h
    have hh := waitLoop_all_fail probe readinessMaxAttempts 0
      (by intro k hk; simpa using h k hk)
    simpa [wait_for_server_ready] using hh

/-- Witness for C1: with the first healthy probe at attempt 2, the waiter
returns `Ok(true)` after exactly two failed attempts (each slept) and the one
healthy probe. -/
theorem wait_for_server_ready_correct_witness :
    2 < readinessMaxAttempts ∧ probeW 2 = Except.ok true ∧
    wait_for_server_ready probeW =
      (Except.ok true, failSeg probeW 0 2 ++ [Event.probe (Except.ok true)]) :=
  ⟨by decide, by decide,
   (wait_for_server_ready_correct probeW).1 2 (by decide) (by decide) (by decide)⟩

/-- C2: a single `check_server_health` call never propagates an error — for
every network condition it returns `Ok` of exactly one of the two health
values — and it reports healthy exactly when the GET completed within the
timeout with a 2xx status. -/
theorem check_server_health_total (o : NetOutcome) :
    (∀ e, check_server_health o ≠ Except.error e) ∧
    (check_server_health o = Except.ok true ∨ check_server_health o = Except.ok false) ∧
    (check_server_health o = Except.ok true ↔
      ∃ s, o = NetOutcome.response s ∧ 200 ≤ s ∧ s < 300) := by
  cases o with
  | failure r => simp [check_server_health]
  | response s =>
    refine ⟨by simp [check_server_health], ?_, ?_⟩
    · cases hs : statusIsSuccess s with
      | true => exact Or.inl (by simp [check_server_health, hs])
      | false => exact Or.inr (by simp [check_server_health, hs])
    · constructor
      · intro h
        have hs : statusIsSuccess s = true := by
          simpa [check_server_health] using h
        simp [statusIsSuccess] at hs
        exact ⟨s, rfl, hs.1, hs.2⟩
      · rintro ⟨t, ht, h1, h2⟩
        injection ht with hst
        subst hst
        simp [check_server_health, statusIsSuccess]
        omega

/-- Witness for C2 at two concrete conditions: a 200 response is healthy and a
refused connection is unhealthy, with no error in either case. -/
theorem check_server_health_total_witness :
    check_server_health (NetOutcome.response 200) = Except.ok true ∧
    (check_server_health netRefused = Except.ok true ∨
      check_server_health netRefused = Except.ok false) :=
  ⟨((check_server_health_total (NetOutcome.response 200)).2.2).mpr
     ⟨200, rfl, by decide, by decide⟩,
   (check_server_health_total netRefused).2.1⟩

/-- Every event in a wait-loop trace is either a probe carrying a value of the
probe oracle or the one-second sleep. -/
theorem waitLoop_events (probe : Nat → Except String Bool) :
    ∀ n i ev, ev ∈ (waitLoop probe n i).2 →
      (∃ k, ev = Event.probe (probe k)) ∨ ev = Event.sleepSecs readinessIntervalSecs := by
  intro n
  induction n with
  | zero => intro i ev h; simp [waitLoop] at h
  | succ n ih =>
    intro i ev h
    cases hb : probe i with
    | error e =>
      simp [waitLoop, hb] at h
      rcases h with h | h | h
      · exact Or.inl ⟨i, by simp [hb, h]⟩
      · exact Or.inr h
      · exact ih (i + 1) ev h
    | ok b =>
      cases b with
      | true =>
        simp [waitLoop, hb] at h
        exact Or.inl ⟨i, by simp [hb, h]⟩
      | false =>
        simp [waitLoop, hb] at h
        rcases h with h | h | h
        · exact Or.inl ⟨i, by simp [hb, h]⟩
        · exact Or.inr h
        · exact ih (i + 1) ev h

/-- C10: `check_server_health` returns `Ok` for every network condition, so
when the readiness loop's probes come from `check_server_health` its trace
never contains a probe that produced an `Err` — the `Err` match arm inside
`wait_for_server_ready` is unreachable. -/
theorem check_server_health_no_err (outcomes : Nat → NetOutcome) :
    (∀ o, ∃ b, check_server_health o = Except.ok b) ∧
    (∀ e, Event.probe (Except.error e) ∉
      (wait_for_server_ready (fun i => check_server_health (outcomes i))).2) := by
  constructor
  · intro o
    cases o with
    | failure r => exact ⟨false, rfl⟩
    | response s => exact ⟨statusIsSuccess s, rfl⟩
  · intro e hmem
    rcases waitLoop_events (fun i => check_server_health (outcomes i))
        readinessMaxAttempts 0 _ hmem with ⟨k, hk⟩ | h
    · have h2 : Except.error e = check_server_health (outcomes k) := by
        injection hk
      cases ho : outcomes k <;> rw [ho] at h2 <;> simp [check_server_health] at h2
    · exact Event.noConfusion h

/-- Witness for C10: at a refused connection the probe still returns `Ok`. -/
theorem check_server_health_no_err_witness :
    ∃ b, check_server_health (NetOutcome.failure "refused") = Except.ok b :=
  (check_server_health_no_err (fun _ => NetOutcome.failure "refused")).1
    (NetOutcome.failure "refused")

/-- When no path of the list exists, the candidate loop spawns nothing and
returns the fixed not-found error. -/
theorem startServerLoop_none (fs : String → Bool) (spawn : LaunchCmd → Except String Unit) :
    ∀ l, firstExisting fs l = none →
      startServerLoop fs spawn l =
        (Except.error "Could not find or start server executable", []) := by
  intro l
  induction l with
  | nil => intro _; rfl
  | cons p rest ih =>
    intro h
    by_cases hp : fs p
    · simp [firstExisting, hp] at h
    · have h' : firstExisting fs rest = none := by simpa [firstExisting, hp] using h
      simp [startServerLoop, hp, ih h']

/-- The first spawn the candidate loop attempts is at the first existing path. -/
theorem startServerLoop_first (fs : String → Bool) (spawn : LaunchCmd → Except String Unit) :
    ∀ l p, firstExisting fs l = some p →
      ∃ rest, (startServerLoop fs spawn l).2 = Event.spawn (commandFor p) :: rest := by
  intro l
  induction l with
  | nil => intro p h; simp [firstExisting] at h
  | cons q rest ih =>
    intro p h
    by_cases hq : fs q
    · have hqp : q = p := by simpa [firstExisting, hq] using h
      subst hqp
      cases hs : spawn (commandFor q) with
      | ok u => exact ⟨[], by simp [startServerLoop, hq, hs]⟩
      | error e =>
        exact ⟨(startServerLoop fs spawn rest).2, by simp [startServerLoop, hq, hs]⟩
    · have h' : firstExisting fs rest = some p := by simpa [firstExisting, hq] using h
      rcases ih p h' with ⟨r, hr⟩
      exact ⟨r, by simp [startServerLoop, hq, hr]⟩

/-- When the spawn at the first existing path succeeds, the loop returns right
there: that path's success message, and that single spawn as the whole trace. -/
theorem startServerLoop_firstSpawnOk (fs : String → Bool)
    (spawn : LaunchCmd → Except String Unit) :
    ∀ l p, firstExisting fs l = some p → spawn (commandFor p) = Except.ok () →
      startServerLoop fs spawn l =
        (Except.ok ("Server started from " ++ p), [Event.spawn (commandFor p)]) := by
  intro l
  induction l with
  | nil => intro p h _; simp [firstExisting] at h
  | cons q rest ih =>
    intro p h hsp
    by_cases hq : fs q
    · have hqp : q = p := by simpa [firstExisting, hq] using h
      subst hqp
      simp [startServerLoop, hq, hsp]
    · have h' : firstExisting fs rest = some p := by simpa [firstExisting, hq] using h
      simp [startServerLoop, hq, ih p h' hsp]

/-- C4: `start_server` checks the fixed candidate list in listed order. When no
candidate exists it spawns nothing and returns the not-found error; when some
candidate exists, the first spawn is at the first existing path regardless of
later entries; and when that spawn succeeds the loop returns immediately with
only that one spawn performed (short-circuit, not exhaustive search). -/
theorem start_server_resolution (fs : String → Bool) (spawn : LaunchCmd → Except String Unit) :
    (firstExisting fs server_paths = none →
      start_server fs spawn =
        (Except.error "Could not find or start server executable", [])) ∧
    (∀ p, firstExisting fs server_paths = some p →
      ∃ rest, (start_server fs spawn).2 = Event.spawn (commandFor p) :: rest) ∧
    (∀ p, firstExisting fs server_paths = some p → spawn (commandFor p) = Except.ok () →
      start_server fs spawn =
        (Except.ok ("Server started from " ++ p), [Event.spawn (commandFor p)])) :=
  ⟨fun h => startServerLoop_none fs spawn server_paths h,
   fun p h => startServerLoop_first fs spawn server_paths p h,
   fun p h hs => startServerLoop_firstSpawnOk fs spawn server_paths p h hs⟩

/-- Witness for C4: with the second and fifth candidates both existing, the
second (the first existing one) is selected and is the only spawn; and with no
candidate existing there is no spawn at all. -/
theorem start_server_resolution_witness :
    firstExisting fsTwo server_paths = some "../server/start.js" ∧
    start_server fsTwo spawnOk =
      (Except.ok ("Server started from " ++ "../server/start.js"),
       [Event.spawn (commandFor "../server/start.js")]) ∧
    start_server fsNone spawnOk =
      (Except.error "Could not find or start server executable", []) :=
  ⟨by decide,
   (start_server_resolution fsTwo spawnOk).2.2 "../server/start.js" (by decide) (by decide),
   (start_server_resolution fsNone spawnOk).1 (by decide)⟩

/-- C7 counterexample: for the Script candidate `../server/start.js` the
launcher does invoke `node` with the script path, but sets the working
directory to the fixed `./server`, which is not the script's containing
directory `../server`. -/
theorem script_cwd_counterexample :
    (commandFor "../server/start.js").program = "node" ∧
    (commandFor "../server/start.js").args = ["../server/start.js"] ∧
    containingDir "../server/start.js" = "../server" ∧
    (commandFor "../server/start.js").cwd = some "./server" ∧
    (commandFor "../server/start.js").cwd ≠ some (containingDir "../server/start.js") := by
  decide

/-- C7 amended: for every Script candidate (a path ending in `.js`) the
launcher invokes `node` with the script path as its sole argument and sets the
child's working directory to the fixed path `./server` (which coincides with
the containing directory only for the first candidate). -/
theorem commandFor_script (p : String) (h : strEndsWith p ".js" = true) :
    commandFor p =
      { program := "node", args := [p], cwd := some "./server",
        stdout := StdioPolicy.null, stderr := StdioPolicy.null } := by
  simp [commandFor, h]

/-- Witness for the amended C7 at the first candidate path. -/
theorem commandFor_script_witness :
    strEndsWith "./server/start.js" ".js" = true ∧
    commandFor "./server/start.js" =
      { program := "node", args := ["./server/start.js"], cwd := some "./server",
        stdout := StdioPolicy.null, stderr := StdioPolicy.null } :=
  ⟨by decide, commandFor_script "./server/start.js" (by decide)⟩

/-- C8 counterexample: the per-call probe timeout (5 seconds) is NOT strictly
less than the sleep interval (1 second) — the comparison decides to false. -/
theorem probe_timeout_not_lt_interval :
    decide (healthRequest.timeoutSecs < readinessIntervalSecs) = false := by decide

/-- C8 amended: the readiness policy is maxAttempts = 30 with a one-second
interval, but the per-call probe timeout is 5 seconds, strictly GREATER than
the interval, not less. -/
theorem probe_timeout_vs_interval :
    healthRequest.timeoutSecs = 5 ∧ readinessIntervalSecs = 1 ∧
    readinessMaxAttempts = 30 ∧ readinessIntervalSecs < healthRequest.timeoutSecs := by
  decide

/-- C9 counterexample: with `./server/start.js` present and every spawn
failing, `start_server` reports the fixed message, and reports the very same
message under two different concrete OS errors — the terminal error is a
generic fixed message, not assembled from the last concrete error. -/
theorem start_server_error_ignores_cause :
    spawnFailA (commandFor "./server/start.js") = Except.error "permission denied" ∧
    spawnFailB (commandFor "./server/start.js") = Except.error "interpreter not found" ∧
    (start_server fsB spawnFailA).1 =
      Except.error "Could not find or start server executable" ∧
    (start_server fsB spawnFailA).1 = (start_server fsB spawnFailB).1 := by
  decide

/-- Every error the candidate loop returns is the fixed message, whatever
concrete spawn errors occurred along the way. -/
theorem startServerLoop_error_fixed (fs : String → Bool)
    (spawn : LaunchCmd → Except String Unit) :
    ∀ l e, (startServerLoop fs spawn l).1 = Except.error e →
      e = "Could not find or start server executable" := by
  intro l
  induction l with
  | nil =>
    intro e h
    have hh : ("Could not find or start server executable" : String) = e := by
      injection h
    exact hh.symm
  | cons p rest ih =>
    intro e h
    by_cases hp : fs p
    · cases hs : spawn (commandFor p) with
      | ok u => simp [startServerLoop, hp, hs] at h
      | error e2 =>
        apply ih
        simpa [startServerLoop, hp, hs] using h
    · apply ih
      simpa [startServerLoop, hp] using h

/-- C9 amended: whenever `start_server` fails, its error is the fixed generic
message `Could not find or start server executable`, regardless of the last
concrete error encountered during the attempt (concrete spawn errors are only
logged, never included). -/
theorem start_server_error_is_fixed (fs : String → Bool)
    (spawn : LaunchCmd → Except String Unit) (e : String)
    (h : (start_server fs spawn).1 = Except.error e) :
    e = "Could not find or start server executable" :=
  startServerLoop_error_fixed fs spawn server_paths e h

/-- Witness for the amended C9: on an empty filesystem `start_server` fails
with exactly the fixed message. -/
theorem start_server_error_is_fixed_witness :
    (start_server fsNone spawnOk).1 =
      Except.error "Could not find or start server executable" ∧
    "Could not find or start server executable" =
      "Could not find or start server executable" :=
  ⟨by decide,
   start_server_error_is_fixed fsNone spawnOk
     "Could not find or start server executable" (by decide)⟩

/-- C5: when the embedded spawn succeeds, `start_embedded_server` sleeps the
3-second grace period and only then inspects `try_wait`; it returns `Ok(())`
exactly when the child is still running, and a child that exited within the
grace period yields an error result naming the early exit — a launch failure
(an `Err`, fed to the same fallback as a spawn failure), not a readiness
failure. -/
theorem start_embedded_grace_check (dir : String) (fs : String → Bool)
    (spawn : LaunchCmd → Except String Unit) (tw : TryWaitRes)
    (hres : fs (dir ++ "/nyx-server.exe") = true)
    (hspawn : spawn (embeddedCommand (dir ++ "/nyx-server.exe")) = Except.ok ()) :
    (start_embedded_server (Except.ok dir) fs spawn tw).2 =
      [Event.spawn (embeddedCommand (dir ++ "/nyx-server.exe")),
       Event.sleepSecs embeddedGraceSecs, Event.waitCheck tw] ∧
    ((start_embedded_server (Except.ok dir) fs spawn tw).1 = Except.ok () ↔
      tw = TryWaitRes.running) ∧
    (∀ s, tw = TryWaitRes.exited s →
      (start_embedded_server (Except.ok dir) fs spawn tw).1 =
        Except.error ("Server process exited early with status: " ++ s)) := by
  refine ⟨?_, ?_, ?_⟩
  · cases tw <;> simp [start_embedded_server, hres, hspawn]
  · cases tw <;> simp [start_embedded_server, hres, hspawn]
  · intro s h
    subst h
    simp [start_embedded_server, hres, hspawn]

/-- Witness for C5: with the packaged resource present, the spawn succeeding
and the child still running after the grace period, the embedded launch
succeeds. -/
theorem start_embedded_grace_check_witness :
    fsRes ("/res" ++ "/nyx-server.exe") = true ∧
    spawnOk (embeddedCommand ("/res" ++ "/nyx-server.exe")) = Except.ok () ∧
    ((start_embedded_server (Except.ok "/res") fsRes spawnOk TryWaitRes.running).1 =
        Except.ok () ↔ TryWaitRes.running = TryWaitRes.running) :=
  ⟨by decide, rfl,
   (start_embedded_grace_check "/res" fsRes spawnOk TryWaitRes.running
     (by decide) rfl).2.1⟩

/-- C6 (failing scenario): the code keeps no shared launch state, so the
startup background task and a concurrent explicit `start_server` command each
run their full sequential behaviour. Under a refused health probe, an absent
packaged resource, `./server/start.js` present and spawns succeeding, the
schedule that lets the command run between the task's probe and the task's
spawn produces two spawn events — a duplicate server — and its first spawn is
performed while the other launch attempt is still in flight, violating the
at-most-one-active-launch invariant. -/
theorem concurrent_duplicate_spawn :
    (raceTrace.filter (fun x => isSpawn x.1)).length = 2 ∧
    (raceTrace.filter (fun x => isSpawn x.1)).head? =
      some (Event.spawn (commandFor "./server/start.js"), true) := by
  decide

/-- C3: whenever the health probe reports unhealthy and the embedded strategy
fails — the packaged resource is absent, or the spawn fails, or the child
exits during the grace period — the startup task runs the external discovery
(`start_server`, whose spawn attempts close the task's trace) rather than
reporting the all-failed outcome immediately; the all-failed outcome arises
only when `start_server` also fails, and carries `start_server`'s error. -/
theorem startup_task_fallback (net : NetOutcome) (dir : String) (fs : String → Bool)
    (spawn : LaunchCmd → Except String Unit) (tw : TryWaitRes)
    (hunhealthy : check_server_health net = Except.ok false)
    (hfail : fs (dir ++ "/nyx-server.exe") = false ∨
      (fs (dir ++ "/nyx-server.exe") = true ∧
        (∃ e, spawn (embeddedCommand (dir ++ "/nyx-server.exe")) = Except.error e)) ∨
      (fs (dir ++ "/nyx-server.exe") = true ∧
        spawn (embeddedCommand (dir ++ "/nyx-server.exe")) = Except.ok () ∧
        ∃ s, tw = TryWaitRes.exited s)) :
    (∃ t, (startup_task net (Except.ok dir) fs spawn tw).2 =
      t ++ (start_server fs spawn).2) ∧
    (∀ e, (startup_task net (Except.ok dir) fs spawn tw).1 = StartupOutcome.allFailed e →
      (start_server fs spawn).1 = Except.error e) ∧
    (∀ m, (start_server fs spawn).1 = Except.ok m →
      ∀ e, (startup_task net (Except.ok dir) fs spawn tw).1 ≠ StartupOutcome.allFailed e) := by
  rcases hfail with hres | ⟨hres, e0, hs⟩ | ⟨hres, hs, s, htw⟩
  · cases hext : (start_server fs spawn).1 with
    | ok m =>
      have htask : startup_task net (Except.ok dir) fs spawn tw =
          (StartupOutcome.embeddedStarted,
           Event.sleepSecs 2 :: Event.probe (Except.ok false) ::
             (start_server fs spawn).2) := by
        simp [startup_task, hunhealthy, start_embedded_server, Except.map, hres, hext]
      refine ⟨⟨[Event.sleepSecs 2, Event.probe (Except.ok false)], ?_⟩, ?_, ?_⟩
      · simp [htask]
      · intro e h
        rw [htask] at h
        exact StartupOutcome.noConfusion h
      · intro m2 hm2 e hh
        rw [htask] at hh
        exact StartupOutcome.noConfusion hh
    | error e2 =>
      have htask : startup_task net (Except.ok dir) fs spawn tw =
          (StartupOutcome.allFailed e2,
           Event.sleepSecs 2 :: Event.probe (Except.ok false) ::
             ((start_server fs spawn).2 ++ (start_server fs spawn).2)) := by
        simp [startup_task, hunhealthy, start_embedded_server, Except.map, hres, hext]
      refine ⟨⟨Event.sleepSecs 2 :: Event.probe (Except.ok false) ::
          (start_server fs spawn).2, ?_⟩, ?_, ?_⟩
      · simp [htask]
      · intro e h
        rw [htask] at h
        have he : e2 = e := by injection h
        exact congrArg Except.error he
      · intro m2 hm2 e
        exact Except.noConfusion hm2
  · cases hext : (start_server fs spawn).1 with
    | ok m =>
      have htask : startup_task net (Except.ok dir) fs spawn tw =
          (StartupOutcome.fallbackStarted m,
           Event.sleepSecs 2 :: Event.probe (Except.ok false) ::
             Event.spawn (embeddedCommand (dir ++ "/nyx-server.exe")) ::
             (start_server fs spawn).2) := by
        simp [startup_task, hunhealthy, start_embedded_server, hres, hs, hext]
      refine ⟨⟨[Event.sleepSecs 2, Event.probe (Except.ok false),
          Event.spawn (embeddedCommand (dir ++ "/nyx-server.exe"))], ?_⟩, ?_, ?_⟩
      · simp [htask]
      · intro e h
        rw [htask] at h
        exact StartupOutcome.noConfusion h
      · intro m2 hm2 e hh
        rw [htask] at hh
        exact StartupOutcome.noConfusion hh
    | error e2 =>
      have htask : startup_task net (Except.ok dir) fs spawn tw =
          (StartupOutcome.allFailed e2,
           Event.sleepSecs 2 :: Event.probe (Except.ok false) ::
             Event.spawn (embeddedCommand (dir ++ "/nyx-server.exe")) ::
             (start_server fs spawn).2) := by
        simp [startup_task, hunhealthy, start_embedded_server, hres, hs, hext]
      refine ⟨⟨[Event.sleepSecs 2, Event.probe (Except.ok false),
          Event.spawn (embeddedCommand (dir ++ "/nyx-server.exe"))], ?_⟩, ?_, ?_⟩
      · simp [htask]
      · intro e h
        rw [htask] at h
        have he : e2 = e := by injection h
        exact congrArg Except.error he
      · intro m2 hm2 e
        exact Except.noConfusion hm2
  · subst htw
    cases hext : (start_server fs spawn).1 with
    | ok m =>
      have htask : startup_task net (Except.ok dir) fs spawn (TryWaitRes.exited s) =
          (StartupOutcome.fallbackStarted m,
           Event.sleepSecs 2 :: Event.probe (Except.ok false) ::
             Event.spawn (embeddedCommand (dir ++ "/nyx-server.exe")) ::
             Event.sleepSecs embeddedGraceSecs ::
             Event.waitCheck (TryWaitRes.exited s) :: (start_server fs spawn).2) := by
        simp [startup_task, hunhealthy, start_embedded_server, hres, hs, hext]
      refine ⟨⟨[Event.sleepSecs 2, Event.probe (Except.ok false),
          Event.spawn (embeddedCommand (dir ++ "/nyx-server.exe")),
          Event.sleepSecs embeddedGraceSecs,
          Event.waitCheck (TryWaitRes.exited s)], ?_⟩, ?_, ?_⟩
      · simp [htask]
      · intro e h
        rw [htask] at h
        exact StartupOutcome.noConfusion h
      · intro m2 hm2 e hh
        rw [htask] at hh
        exact StartupOutcome.noConfusion hh
    | error e2 =>
      have htask : startup_task net (Except.ok dir) fs spawn (TryWaitRes.exited s) =
          (StartupOutcome.allFailed e2,
           Event.sleepSecs 2 :: Event.probe (Except.ok false) ::
             Event.spawn (embeddedCommand (dir ++ "/nyx-server.exe")) ::
             Event.sleepSecs embeddedGraceSecs ::
             Event.waitCheck (TryWaitRes.exited s) :: (start_server fs spawn).2) := by
        simp [startup_task, hunhealthy, start_embedded_server, hres, hs, hext]
      refine ⟨⟨[Event.sleepSecs 2, Event.probe (Except.ok false),
          Event.spawn (embeddedCommand (dir ++ "/nyx-server.exe")),
          Event.sleepSecs embeddedGraceSecs,
          Event.waitCheck (TryWaitRes.exited s)], ?_⟩, ?_, ?_⟩
      · simp [htask]
      · intro e h
        rw [htask] at h
        have he : e2 = e := by injection h
        exact congrArg Except.error he
      · intro m2 hm2 e
        exact Except.noConfusion hm2

/-- Witness for C3: with a refused health probe, no packaged resource and no
external candidate either, the task's outcome carries exactly the external
strategy's error. -/
theorem startup_task_fallback_witness :
    check_server_health netRefused = Except.ok false ∧
    fsNone ("/res" ++ "/nyx-server.exe") = false ∧
    ((∃ t, (startup_task netRefused (Except.ok "/res") fsNone spawnOk TryWaitRes.running).2 =
        t ++ (start_server fsNone spawnOk).2) ∧
      (∀ e, (startup_task netRefused (Except.ok "/res") fsNone spawnOk TryWaitRes.running).1 =
          StartupOutcome.allFailed e →
        (start_server fsNone spawnOk).1 = Except.error e) ∧
      (∀ m, (start_server fsNone spawnOk).1 = Except.ok m →
        ∀ e, (startup_task netRefused (Except.ok "/res") fsNone spawnOk TryWaitRes.running).1 ≠
          StartupOutcome.allFailed e)) :=
  ⟨by decide, by decide,
   startup_task_fallback netRefused "/res" fsNone spawnOk TryWaitRes.running
     (by decide) (Or.inl (by decide))⟩

end NyxSupervisor
